import Mathlib

/-!
# Random-string credential provider (`provider/random/random.go`)

A shallow embedding of the provider and theorems about `New`, `Create` and
`Destroy`.

Conventions of the embedding:

* Go `int`, `int64` and `time.Duration` values are `Int`.  No arithmetic in
  this package can overflow except `time.Time.Add`, which is taken at its
  documented meaning `t + d` on instants counted in nanoseconds.
* The provider is a pointer receiver in Go; here every operation takes the
  provider state and returns the new one.
* `time.Now()` is an input of `Create` (the reading of the clock at the call).
* `math/rand` is standard library: the generator is a parameter (`MathRand`),
  its documented contract about `Intn` is the predicate `MathRand.InRange`.
* `request.UnmarshalConfig` lives in the parent package; `Create` takes it as
  a parameter.
* A run-time fault of the Go runtime is an `Except.error` carrying a `Panic`.
* A Go string is a byte string.  The alphabet of `New` is pure ASCII, so its
  byte positions are its character positions and `len` is the number of
  characters; `String.length` and positions in `String.toList` are used.
* `make([]byte, n)` faults for `n < 0` and for `n` above the allocation limit
  `maxAlloc` of the Go runtime.  That limit is a constant of the runtime, not
  of this package (2^48 bytes on 64-bit Linux, `maxAlloc64`); it is a parameter
  of `make`, `Create` and `run`.  An allocation within the limit is taken to
  succeed: exhaustion of the memory of the machine is outside the embedding.
* The type `option` is unexported and `WithRotationInterval` is the only
  function producing one, so the option lists of the theorems are
  `ds.map WithRotationInterval` for a list `ds` of durations.
-/

namespace Sidecred.Random

/-- Run-time faults that the statements of this package can raise. -/
inductive Panic where
  /-- Fault of `make([]byte, n)` for `n < 0` or `n` above the allocation limit. -/
  | makesliceLen
  /-- Fault of `s[i]` for `i` outside `[0, len s)`. -/
  | indexOutOfRange
  /-- Fault of `Intn(n)` for `n <= 0`. -/
  | intnArgument
  deriving DecidableEq, Repr

/-- The part of `math/rand` that the provider uses, over generator states `σ`. -/
structure MathRand (σ : Type) where
  /-- State of `rand.New(rand.NewSource(seed))`. -/
  New : Int → σ
  /-- Result and next state of `Intn(n)` for a positive bound `n`. -/
  Intn : σ → Int → Int × σ

/-- Documented contract of `Intn`: for `n > 0` the result lies in `[0, n)`. -/
def MathRand.InRange {σ : Type} (R : MathRand σ) : Prop :=
  ∀ (g : σ) (n : Int), 0 < n → 0 ≤ (R.Intn g n).1 ∧ (R.Intn g n).1 < n

/-- The call `r.Intn(n)`, with the fault on a non-positive bound. -/
def Intn {σ : Type} (R : MathRand σ) (g : σ) (n : Int) : Except Panic (Int × σ) :=
  if n ≤ 0 then .error .intnArgument else .ok (R.Intn g n)

/-- The builtin `len` on a string. -/
def len (s : String) : Int := (s.length : Int)

/-- The index expression `s[i]` on a string, with its bounds check. -/
def index (s : String) (i : Int) : Except Panic Char :=
  if i < 0 then .error .indexOutOfRange
  else
    match s.toList.get? i.toNat with
    | some c => .ok c
    | none => .error .indexOutOfRange

/-- The call `make([]byte, n)`: a zeroed buffer, or the fault of the runtime
(`makeslice: len out of range`) when `n < 0` or `n` bytes exceed `maxAlloc`. -/
def make (maxAlloc : Int) (n : Int) : Except Panic (List Char) :=
  if n < 0 ∨ maxAlloc < n then .error .makesliceLen
  else .ok (List.replicate n.toNat (Char.ofNat 0))

/-- The allocation limit `maxAlloc` of the Go runtime on 64-bit Linux, 2^48. -/
def maxAlloc64 : Int := 281474976710656

/-- The configuration format for random credential requests. -/
structure RequestConfig where
  Length : Int
  deriving DecidableEq, Repr

/-- Modelled from the spec: the request record of the parent package, which
carries a name and a provider-specific config payload of type `Cfg`. -/
structure CredentialRequest (Cfg : Type) where
  Name : String
  Config : Cfg

/-- Modelled from the spec: the credential record of the parent package, with
the four fields that `Create` fills in. -/
structure Credential where
  Name : String
  Value : String
  Description : String
  Expiration : Int
  deriving DecidableEq, Repr

/-- The provider state: generator state, alphabet and rotation interval. -/
structure provider (σ : Type) where
  generator : σ
  chars : String
  rotationInterval : Int

/-- A construction option: a function updating the provider. -/
abbrev option (σ : Type) : Type := provider σ → provider σ

/-- The interval at which the random string should be rotated. -/
def WithRotationInterval {σ : Type} (duration : Int) : option σ :=
  fun p => { p with rotationInterval := duration }

/-- The constant `time.Hour` in nanoseconds. -/
def Hour : Int := 3600000000000

/-- The alphabet installed by `New`. -/
def defaultChars : String :=
  "abcdefghijklmnopqrstuvwxyzABCDEFGHIJKLMNOPQRSTUVWXYZ0123456789!@#$%&*"

/-- A new provider for random strings: defaults, then the options in order. -/
def New {σ : Type} (R : MathRand σ) (seed : Int) (options : List (option σ)) : provider σ :=
  options.foldl (fun p optionFunc => optionFunc p)
    { generator := R.New seed
      chars := defaultChars
      rotationInterval := Hour * 24 * 7 }

/-- The loop `for i := range b { b[i] = chars[generator.Intn(len(chars))] }`:
`k` iterations are left, the next position is `i`. -/
def fillLoop {σ : Type} (R : MathRand σ) (chars : String) :
    Nat → Nat → List Char → σ → Except Panic (List Char × σ)
  | 0, _, b, g => .ok (b, g)
  | k + 1, i, b, g =>
    match Intn R g (len chars) with
    | .error e => .error e
    | .ok (idx, g') =>
      match index chars idx with
      | .error e => .error e
      | .ok c => fillLoop R chars k (i + 1) (b.set i c) g'

/-- The three results of `Create`; a nil slice or nil pointer is `none`. -/
structure CreateReturn (ε Metadata : Type) where
  credentials : Option (List Credential)
  metadata : Option Metadata
  err : Option ε

/-- The method `Create`, at clock reading `now`, under a runtime of allocation
limit `maxAlloc`.  The result is the triple returned together with the provider
state after the call, or a fault. -/
def Create {σ Cfg ε : Type} (Metadata : Type) (R : MathRand σ) (maxAlloc : Int)
    (UnmarshalConfig : CredentialRequest Cfg → Except ε RequestConfig)
    (now : Int) (p : provider σ) (request : CredentialRequest Cfg) :
    Except Panic (CreateReturn ε Metadata × provider σ) :=
  match UnmarshalConfig request with
  | .error err => .ok (⟨none, none, some err⟩, p)
  | .ok c =>
    match make maxAlloc c.Length with
    | .error e => .error e
    | .ok b =>
      match fillLoop R p.chars b.length 0 b p.generator with
      | .error e => .error e
      | .ok (b', g') =>
        .ok (⟨some [{ Name := request.Name
                      Value := String.mk b'
                      Description := "Random generated secret managed by Sidecred."
                      Expiration := now + p.rotationInterval }], none, none⟩,
             { p with generator := g' })

/-- The method `Destroy`: returns nil; the provider is not touched. -/
def Destroy {σ Resource : Type} (ε : Type) (p : provider σ) (_resource : Option Resource) :
    Option ε × provider σ :=
  (none, p)

/-- One call on a provider: `Create` at a clock reading, or `Destroy`. -/
inductive Call (Cfg Resource : Type) where
  | create (request : CredentialRequest Cfg) (now : Int)
  | destroy (resource : Option Resource)

/-- A sequence of calls on one provider, in order.  The result lists what the
`Create` calls returned, with the provider state at the end. -/
def run {σ Cfg ε Resource : Type} (Metadata : Type) (R : MathRand σ) (maxAlloc : Int)
    (UnmarshalConfig : CredentialRequest Cfg → Except ε RequestConfig) :
    provider σ → List (Call Cfg Resource) →
      Except Panic (List (CreateReturn ε Metadata) × provider σ)
  | p, [] => .ok ([], p)
  | p, .create request now :: calls =>
    match Create Metadata R maxAlloc UnmarshalConfig now p request with
    | .error e => .error e
    | .ok (r, p') =>
      match run Metadata R maxAlloc UnmarshalConfig p' calls with
      | .error e => .error e
      | .ok (rs, p'') => .ok (r :: rs, p'')
  | p, .destroy resource :: calls =>
    run Metadata R maxAlloc UnmarshalConfig (Destroy ε p resource).2 calls

/-- The values of the credentials in one result of `Create`. -/
def CreateReturn.values {ε Metadata : Type} (r : CreateReturn ε Metadata) : List String :=
  (r.credentials.getD []).map Credential.Value

/-- The calls of a sequence that are `Create` calls. -/
def Call.isCreate {Cfg Resource : Type} : Call Cfg Resource → Bool
  | .create _ _ => true
  | .destroy _ => false

/-- The results and final state of `k` successive calls `Intn(bound)`. -/
def draws {σ : Type} (R : MathRand σ) (bound : Int) : Nat → σ → List Int × σ
  | 0, g => ([], g)
  | k + 1, g =>
    let r := R.Intn g bound
    let rest := draws R bound k r.2
    (r.1 :: rest.1, rest.2)

/-- The character of `s` at position `i`, for `i` within bounds. -/
def charAt (s : String) (i : Int) : Char :=
  s.toList.getD i.toNat default

/-- The value that `Create` builds from generator state `g` for length `n`:
the alphabet characters at `n` successive draws. -/
def valueFrom {σ : Type} (R : MathRand σ) (chars : String) (g : σ) (n : Int) : String :=
  String.mk ((draws R (len chars) n.toNat g).1.map (charAt chars))

/-- The values of successive `Create` calls with the given lengths, from
generator state `g` on. -/
def valuesFrom {σ : Type} (R : MathRand σ) (chars : String) : σ → List Int → List (List String)
  | _, [] => []
  | g, n :: ns =>
    [valueFrom R chars g n] :: valuesFrom R chars (draws R (len chars) n.toNat g).2 ns

/-- A linear congruential generator, to run the provider on concrete inputs. -/
def lcg : MathRand Nat where
  New := fun seed => seed.toNat % 2147483648
  Intn := fun g n => (((g / 65536 : Nat) : Int) % n, (g * 1103515245 + 12345) % 2147483648)

/-- Modelled from the spec: a value carried by a field of a config payload;
the decoder of the parent package is not part of this file. -/
inductive FieldValue where
  | null
  | bool (b : Bool)
  | int (n : Int)
  | str (s : String)
  | other (text : String)
  deriving DecidableEq, Repr

/-- Modelled from the spec: the config payload of a request, as its fields. -/
abbrev Payload : Type := List (String × FieldValue)

/-- Modelled from the spec: the one local error kind, a config decode failure,
for a missing or a mistyped `length` field. -/
inductive ConfigDecodeError where
  | missingLength
  | mistypedLength
  deriving DecidableEq, Repr

/-- Modelled from the spec: decoding of the config payload of the parent
package.  The payload has one recognized field, `length`, an integer, which is
required; decoding fails when it is missing or is not an integer. -/
def UnmarshalConfig (request : CredentialRequest Payload) :
    Except ConfigDecodeError RequestConfig :=
  match request.Config.lookup "length" with
  | none => .error .missingLength
  | some (.int n) => .ok { Length := n }
  | some _ => .error .mistypedLength

/-- A decoder of payloads that are the length itself, or not decodable. -/
def decodeInt (request : CredentialRequest (Option Int)) : Except String RequestConfig :=
  match request.Config with
  | some n => .ok { Length := n }
  | none => .error "config: cannot decode"

end Sidecred.Random

namespace Sidecred.Random

section Lemmas

variable {σ Cfg ε Metadata Resource : Type}

theorem len_defaultChars : len defaultChars = 69 := by decide

theorem defaultChars_ascii : ∀ c ∈ defaultChars.toList, c.toNat < 128 := by decide

theorem toNat_lt_length (s : String) (i : Int) (h0 : 0 ≤ i) (h1 : i < len s) :
    i.toNat < s.data.length := by
  have h : (i.toNat : Int) < (s.length : Int) := by
    rw [Int.toNat_of_nonneg h0]; exact h1
  have h2 : i.toNat < s.length := by exact_mod_cast h
  exact h2

theorem index_eq_charAt (s : String) (i : Int) (h0 : 0 ≤ i) (h1 : i < len s) :
    index s i = .ok (charAt s i) := by
  have hlt : i.toNat < s.data.length := toNat_lt_length s i h0 h1
  unfold index charAt
  rw [if_neg (not_lt.mpr h0)]
  simp only [List.getD, String.toList]
  rw [List.get?_eq_get hlt]
  rfl

theorem charAt_mem (s : String) (i : Int) (h0 : 0 ≤ i) (h1 : i < len s) :
    charAt s i ∈ s.toList := by
  have hlt : i.toNat < s.data.length := toNat_lt_length s i h0 h1
  unfold charAt
  simp only [List.getD, String.toList]
  rw [List.get?_eq_get hlt]
  exact List.get_mem _ _ _

theorem draws_length (R : MathRand σ) (bound : Int) (k : Nat) (g : σ) :
    (draws R bound k g).1.length = k := by
  induction k generalizing g with
  | zero => rfl
  | succ k ih => simp [draws, ih]

theorem draws_inRange (R : MathRand σ) (hR : R.InRange) (bound : Int) (hb : 0 < bound)
    (k : Nat) (g : σ) : ∀ v ∈ (draws R bound k g).1, 0 ≤ v ∧ v < bound := by
  induction k generalizing g with
  | zero => intro v hv; simp [draws] at hv
  | succ k ih =>
    intro v hv
    simp only [draws, List.mem_cons] at hv
    rcases hv with rfl | hv
    · exact hR g bound hb
    · exact ih _ v hv

theorem draws_add (R : MathRand σ) (bound : Int) (k j : Nat) (g : σ) :
    draws R bound (k + j) g =
      ((draws R bound k g).1 ++ (draws R bound j (draws R bound k g).2).1,
        (draws R bound j (draws R bound k g).2).2) := by
  induction k generalizing g with
  | zero => simp [draws]
  | succ k ih =>
    rw [Nat.succ_add]
    simp [draws, ih]

theorem fillLoop_eq (R : MathRand σ) (hR : R.InRange) (chars : String) (hpos : 0 < len chars)
    (k : Nat) : ∀ (i : Nat) (b : List Char) (g : σ), i + k ≤ b.length →
      fillLoop R chars k i b g =
        .ok (b.take i ++ (draws R (len chars) k g).1.map (charAt chars) ++ b.drop (i + k),
          (draws R (len chars) k g).2) := by
  induction k with
  | zero =>
    intro i b g _
    simp [fillLoop, draws]
  | succ k ih =>
    intro i b g hle
    have hi : i < b.length := by omega
    have hr := hR g (len chars) hpos
    unfold fillLoop
    simp only [Intn, if_neg (not_le.mpr hpos)]
    rw [index_eq_charAt chars _ hr.1 hr.2]
    simp only
    rw [ih (i + 1) _ _ (by simpa using (by omega : i + 1 + k ≤ b.length))]
    simp only [draws, List.map_cons]
    congr 1
    congr 1
    rw [List.set_eq_take_append_cons_drop, if_pos hi]
    have h1 : (List.take i b ++ charAt chars (R.Intn g (len chars)).1 :: List.drop (i + 1) b).take (i + 1)
        = List.take i b ++ [charAt chars (R.Intn g (len chars)).1] := by
      rw [List.take_append_eq_append_take]
      simp [List.length_take, Nat.min_eq_left (Nat.le_of_lt hi)]
    have h2 : (List.take i b ++ charAt chars (R.Intn g (len chars)).1 :: List.drop (i + 1) b).drop (i + 1 + k)
        = List.drop (i + (k + 1)) b := by
      rw [List.drop_append_eq_append_drop]
      simp [List.length_take, Nat.min_eq_left (Nat.le_of_lt hi)]
      have e1 : i + 1 + k - i = (k + 1) := by omega
      have e2 : List.drop (i + 1 + k) (List.take i b) = [] := by
        apply List.drop_eq_nil_of_le
        rw [List.length_take]
        omega
      rw [e1, e2, List.drop_succ_cons, List.drop_drop]
      simp only [List.nil_append]
      congr 1
      omega
    rw [h1, h2]
    simp

theorem Create_ok (R : MathRand σ) (hR : R.InRange) (maxAlloc : Int)
    (U : CredentialRequest Cfg → Except ε RequestConfig) (now : Int) (p : provider σ)
    (request : CredentialRequest Cfg) (n : Int) (hpos : 0 < len p.chars)
    (hU : U request = .ok { Length := n }) (hn : 0 ≤ n) (hmax : n ≤ maxAlloc) :
    Create Metadata R maxAlloc U now p request =
      .ok (⟨some [{ Name := request.Name
                    Value := valueFrom R p.chars p.generator n
                    Description := "Random generated secret managed by Sidecred."
                    Expiration := now + p.rotationInterval }], none, none⟩,
           { p with generator := (draws R (len p.chars) n.toNat p.generator).2 }) := by
  unfold Create
  rw [hU]
  have hlim : ¬ (n < 0 ∨ maxAlloc < n) := by omega
  simp only [make, if_neg hlim]
  rw [fillLoop_eq R hR p.chars hpos _ 0 _ _ (by simp)]
  simp [valueFrom]

theorem foldl_generator (ds : List Int) (p : provider σ) :
    ((ds.map WithRotationInterval).foldl (fun p optionFunc => optionFunc p) p).generator
      = p.generator := by
  induction ds generalizing p with
  | nil => rfl
  | cons d ds ih => simp only [List.map_cons, List.foldl_cons]; rw [ih]; rfl

theorem foldl_chars (ds : List Int) (p : provider σ) :
    ((ds.map WithRotationInterval).foldl (fun p optionFunc => optionFunc p) p).chars
      = p.chars := by
  induction ds generalizing p with
  | nil => rfl
  | cons d ds ih => simp only [List.map_cons, List.foldl_cons]; rw [ih]; rfl

theorem foldl_rotationInterval (ds : List Int) (p : provider σ) :
    ((ds.map WithRotationInterval).foldl (fun p optionFunc => optionFunc p) p).rotationInterval
      = ds.getLast?.getD p.rotationInterval := by
  induction ds generalizing p with
  | nil => rfl
  | cons d ds ih =>
    simp only [List.map_cons, List.foldl_cons]
    rw [ih]
    cases ds with
    | nil => rfl
    | cons e es =>
      rw [List.getLast?_cons_cons, List.getLast?_eq_getLast _ (List.cons_ne_nil e es)]
      rfl

theorem New_generator (R : MathRand σ) (seed : Int) (ds : List Int) :
    (New R seed (ds.map WithRotationInterval)).generator = R.New seed := by
  unfold New; rw [foldl_generator]

theorem New_chars (R : MathRand σ) (seed : Int) (ds : List Int) :
    (New R seed (ds.map WithRotationInterval)).chars = defaultChars := by
  unfold New; rw [foldl_chars]

theorem New_rotationInterval (R : MathRand σ) (seed : Int) (ds : List Int) :
    (New R seed (ds.map WithRotationInterval)).rotationInterval
      = ds.getLast?.getD (Hour * 24 * 7) := by
  unfold New; rw [foldl_rotationInterval]

theorem lcg_inRange : lcg.InRange := by
  intro g n hn
  exact ⟨Int.emod_nonneg _ (ne_of_gt hn), Int.emod_lt_of_pos _ hn⟩

theorem valueFrom_length (R : MathRand σ) (chars : String) (g : σ) (n : Int) (hn : 0 ≤ n) :
    len (valueFrom R chars g n) = n := by
  unfold len valueFrom
  simp [String.length, draws_length, Int.toNat_of_nonneg hn]

theorem valueFrom_mem (R : MathRand σ) (hR : R.InRange) (chars : String) (hpos : 0 < len chars)
    (g : σ) (n : Int) : ∀ ch ∈ (valueFrom R chars g n).toList, ch ∈ chars.toList := by
  intro ch hch
  simp only [valueFrom, String.toList, List.mem_map] at hch
  obtain ⟨v, hv, rfl⟩ := hch
  have h := draws_inRange R hR (len chars) hpos _ _ v hv
  exact charAt_mem chars v h.1 h.2

theorem New_chars_pos (R : MathRand σ) (seed : Int) (ds : List Int) (g : σ) :
    0 < len ({ New R seed (ds.map WithRotationInterval) with generator := g } : provider σ).chars := by
  show 0 < len (New R seed (ds.map WithRotationInterval)).chars
  rw [New_chars, len_defaultChars]
  decide

theorem valuesFrom_length (R : MathRand σ) (chars : String) (lens : List Int) (g : σ) :
    (valuesFrom R chars g lens).length = lens.length := by
  induction lens generalizing g with
  | nil => rfl
  | cons n ns ih => simp [valuesFrom, ih]

theorem Create_over_limit (R : MathRand σ) (maxAlloc : Int)
    (U : CredentialRequest Cfg → Except ε RequestConfig) (now : Int) (p : provider σ)
    (request : CredentialRequest Cfg) (n : Int)
    (hU : U request = .ok { Length := n }) (hover : maxAlloc < n) :
    Create Metadata R maxAlloc U now p request = .error .makesliceLen := by
  unfold Create
  rw [hU]
  have hlim : n < 0 ∨ maxAlloc < n := Or.inr hover
  simp only [make, if_pos hlim]

theorem run_creates (R : MathRand σ) (hR : R.InRange) (maxAlloc : Int)
    (U : CredentialRequest Cfg → Except ε RequestConfig) :
    ∀ (calls : List (CredentialRequest Cfg × Int)) (lens : List Int) (p : provider σ),
      0 < len p.chars →
      calls.map (fun c => U c.1) = lens.map (fun n => Except.ok { Length := n }) →
      (∀ n ∈ lens, 0 ≤ n) → (∀ n ∈ lens, n ≤ maxAlloc) →
      ∃ (rs : List (CreateReturn ε Metadata)) (p' : provider σ),
        run Metadata R maxAlloc U p
            (calls.map (fun c => (Call.create c.1 c.2 : Call Cfg Resource)))
          = .ok (rs, p') ∧
        rs.map CreateReturn.values = valuesFrom R p.chars p.generator lens := by
  intro calls
  induction calls with
  | nil =>
    intro lens p _ hmap _ _
    cases lens with
    | nil => exact ⟨[], p, rfl, rfl⟩
    | cons n ns => simp at hmap
  | cons c cs ih =>
    intro lens p hpos hmap hnn hmx
    cases lens with
    | nil => simp at hmap
    | cons n ns =>
      simp only [List.map_cons, List.cons.injEq] at hmap
      have hn : 0 ≤ n := hnn n (List.mem_cons_self _ _)
      have hm : n ≤ maxAlloc := hmx n (List.mem_cons_self _ _)
      have hC := @Create_ok σ Cfg ε Metadata R hR maxAlloc U c.2 p c.1 n hpos hmap.1 hn hm
      obtain ⟨rs, p', hrun, hvals⟩ :=
        ih ns { p with generator := (draws R (len p.chars) n.toNat p.generator).2 } hpos hmap.2
          (fun k hk => hnn k (List.mem_cons_of_mem _ hk))
          (fun k hk => hmx k (List.mem_cons_of_mem _ hk))
      refine ⟨⟨some [{ Name := c.1.Name
                       Value := valueFrom R p.chars p.generator n
                       Description := "Random generated secret managed by Sidecred."
                       Expiration := c.2 + p.rotationInterval }], none, none⟩ :: rs, p', ?_, ?_⟩
      · simp only [List.map_cons, run, hC, hrun]
      · simp only [List.map_cons, hvals, valuesFrom, CreateReturn.values, Option.getD_some,
          List.map_nil]

theorem run_creates_over_limit (R : MathRand σ) (hR : R.InRange) (maxAlloc : Int)
    (U : CredentialRequest Cfg → Except ε RequestConfig) :
    ∀ (calls : List (CredentialRequest Cfg × Int)) (lens : List Int) (p : provider σ),
      0 < len p.chars →
      calls.map (fun c => U c.1) = lens.map (fun n => Except.ok { Length := n }) →
      (∀ n ∈ lens, 0 ≤ n) → (∃ n ∈ lens, maxAlloc < n) →
      run Metadata R maxAlloc U p
          (calls.map (fun c => (Call.create c.1 c.2 : Call Cfg Resource)))
        = .error .makesliceLen := by
  intro calls
  induction calls with
  | nil =>
    intro lens p _ hmap _ hex
    cases lens with
    | nil => obtain ⟨n, hmem, _⟩ := hex; simp at hmem
    | cons n ns => simp at hmap
  | cons c cs ih =>
    intro lens p hpos hmap hnn hex
    cases lens with
    | nil => simp at hmap
    | cons n ns =>
      simp only [List.map_cons, List.cons.injEq] at hmap
      by_cases hm : n ≤ maxAlloc
      · have hn : 0 ≤ n := hnn n (List.mem_cons_self _ _)
        have hC := @Create_ok σ Cfg ε Metadata R hR maxAlloc U c.2 p c.1 n hpos hmap.1 hn hm
        have hex' : ∃ k ∈ ns, maxAlloc < k := by
          obtain ⟨k, hk, hlt⟩ := hex
          rcases List.mem_cons.mp hk with rfl | hk'
          · omega
          · exact ⟨k, hk', hlt⟩
        have hrun := @ih ns { p with generator := (draws R (len p.chars) n.toNat p.generator).2 }
          hpos hmap.2 (fun k hk => hnn k (List.mem_cons_of_mem _ hk)) hex'
        simp only [List.map_cons, run, hC, hrun]
      · have hC := @Create_over_limit σ Cfg ε Metadata R maxAlloc U c.2 p c.1 n hmap.1
          (not_le.mp hm)
        simp only [List.map_cons, run, hC]

theorem Create_zero (R : MathRand σ) (maxAlloc : Int) (hlim : 0 ≤ maxAlloc)
    (U : CredentialRequest Cfg → Except ε RequestConfig)
    (now : Int) (p : provider σ) (request : CredentialRequest Cfg)
    (hU : U request = .ok { Length := 0 }) :
    Create Metadata R maxAlloc U now p request =
      .ok (⟨some [{ Name := request.Name
                    Value := ""
                    Description := "Random generated secret managed by Sidecred."
                    Expiration := now + p.rotationInterval }], none, none⟩, p) := by
  unfold Create
  rw [hU]
  have h0 : ¬ ((0 : Int) < 0 ∨ maxAlloc < 0) := by omega
  simp only [make, if_neg h0]
  rfl

end Lemmas

section Claims

variable {σ Cfg ε Metadata Resource : Type}

/-- C1 fails as stated: the config of this request decodes to the non-negative
length 2^62, above the allocation limit of the runtime, and `Create` faults at
the allocation of the buffer instead of returning a credential. -/
theorem Create_length_over_limit :
    decodeInt { Name := "a", Config := some 4611686018427387904 }
      = .ok { Length := 4611686018427387904 } ∧
    (0 : Int) ≤ 4611686018427387904 ∧
    Create Unit lcg maxAlloc64 decodeInt 0 (New lcg 1 [])
        { Name := "a", Config := some 4611686018427387904 }
      = .error .makesliceLen ∧
    ¬ ∃ (r : CreateReturn String Unit) (p' : provider Nat),
      Create Unit lcg maxAlloc64 decodeInt 0 (New lcg 1 [])
          { Name := "a", Config := some 4611686018427387904 }
        = .ok (r, p') := by
  refine ⟨rfl, by decide, rfl, ?_⟩
  rintro ⟨r, p', h⟩
  have h' : (Except.error Panic.makesliceLen :
      Except Panic (CreateReturn String Unit × provider Nat)) = .ok (r, p') := h
  cases h'

/-- C1, as the code behaves: for a provider built by `New` from any seed and
options, in any state of its random source, a request whose config decodes to
a length `n` with `0 <= n <= maxAlloc` makes `Create` return a nil error, nil
metadata and exactly one credential, whose value has length `n`; for `n = 0`
the value is the empty string. -/
theorem Create_one_credential_of_length (R : MathRand σ) (hR : R.InRange) (maxAlloc : Int)
    (U : CredentialRequest Cfg → Except ε RequestConfig) (seed : Int) (ds : List Int) (g : σ)
    (now : Int) (request : CredentialRequest Cfg) (n : Int)
    (hU : U request = .ok { Length := n }) (hn : 0 ≤ n) (hmax : n ≤ maxAlloc) :
    ∃ (c : Credential) (p' : provider σ),
      Create Metadata R maxAlloc U now
          { New R seed (ds.map WithRotationInterval) with generator := g } request
        = .ok (⟨some [c], none, none⟩, p') ∧
      len c.Value = n ∧ (n = 0 → c.Value = "") := by
  refine ⟨_, _,
    Create_ok R hR maxAlloc U now _ request n (New_chars_pos R seed ds g) hU hn hmax, ?_, ?_⟩
  · exact valueFrom_length R _ _ n hn
  · intro h0
    subst h0
    simp [valueFrom, draws]

theorem Create_one_credential_of_length_witness :
    ∃ (c : Credential) (p' : provider Nat),
      Create Unit lcg maxAlloc64 decodeInt 1000
          { New lcg 1 ([3600].map WithRotationInterval) with generator := 42 }
          { Name := "example-random-credential", Config := some 10 }
        = .ok (⟨some [c], none, none⟩, p') ∧
      len c.Value = 10 ∧ ((10 : Int) = 0 → c.Value = "") :=
  Create_one_credential_of_length lcg lcg_inRange maxAlloc64 decodeInt 1 [3600] 42 1000
    { Name := "example-random-credential", Config := some 10 } 10 rfl (by decide) (by decide)

/-- C2: a provider built by `New` has the 69-character default alphabet, and
when `Intn(k)` returns an index in `[0, k)`, `Create` on a request of decoded
length `n >= 0` meets no index fault: within the allocation limit it returns
one credential and every character of its value is a member of the alphabet,
and above the limit it faults at the allocation and returns no value. -/
theorem Create_value_in_alphabet (R : MathRand σ) (hR : R.InRange) (maxAlloc : Int)
    (U : CredentialRequest Cfg → Except ε RequestConfig) (seed : Int) (ds : List Int) (g : σ)
    (now : Int) (request : CredentialRequest Cfg) (n : Int)
    (hU : U request = .ok { Length := n }) (hn : 0 ≤ n) :
    (New R seed (ds.map WithRotationInterval)).chars = defaultChars ∧
    len defaultChars = 69 ∧
    (n ≤ maxAlloc →
      ∃ (c : Credential) (p' : provider σ),
        Create Metadata R maxAlloc U now
            { New R seed (ds.map WithRotationInterval) with generator := g } request
          = .ok (⟨some [c], none, none⟩, p') ∧
        ∀ ch ∈ c.Value.toList,
          ch ∈ (New R seed (ds.map WithRotationInterval)).chars.toList) ∧
    (maxAlloc < n →
      Create Metadata R maxAlloc U now
          { New R seed (ds.map WithRotationInterval) with generator := g } request
        = .error .makesliceLen) := by
  refine ⟨New_chars R seed ds, len_defaultChars, ?_, ?_⟩
  · intro hmax
    exact ⟨_, _,
      Create_ok R hR maxAlloc U now _ request n (New_chars_pos R seed ds g) hU hn hmax,
      valueFrom_mem R hR _ (New_chars_pos R seed ds g) g n⟩
  · intro hover
    exact Create_over_limit R maxAlloc U now _ request n hU hover

theorem Create_value_in_alphabet_witness :
    (∃ (c : Credential) (p' : provider Nat),
      Create Unit lcg maxAlloc64 decodeInt 0
          { New lcg 7 ([].map WithRotationInterval) with generator := 123456 }
          { Name := "a", Config := some 5 }
        = .ok (⟨some [c], none, none⟩, p') ∧
      ∀ ch ∈ c.Value.toList, ch ∈ (New lcg 7 ([].map WithRotationInterval)).chars.toList) ∧
    Create Unit lcg maxAlloc64 decodeInt 0
        { New lcg 7 ([].map WithRotationInterval) with generator := 123456 }
        { Name := "a", Config := some 4611686018427387904 }
      = .error .makesliceLen :=
  ⟨(Create_value_in_alphabet lcg lcg_inRange maxAlloc64 decodeInt 7 [] 123456 0
      { Name := "a", Config := some 5 } 5 rfl (by decide)).2.2.1 (by decide),
    (Create_value_in_alphabet lcg lcg_inRange maxAlloc64 decodeInt 7 [] 123456 0
      { Name := "a", Config := some 4611686018427387904 } 4611686018427387904 rfl (by decide)).2.2.2 (by decide)⟩

/-- C5: when decoding the config of the request fails with error `e`, `Create`
returns `e` itself with a nil credential slice and nil metadata, and the
provider (random source, alphabet, rotation interval) is left as it was. -/
theorem Create_decode_error (R : MathRand σ) (maxAlloc : Int)
    (U : CredentialRequest Cfg → Except ε RequestConfig) (now : Int) (p : provider σ)
    (request : CredentialRequest Cfg) (e : ε) (hU : U request = .error e) :
    Create Metadata R maxAlloc U now p request = .ok (⟨none, none, some e⟩, p) := by
  unfold Create
  rw [hU]

theorem Create_decode_error_witness :
    Create Unit lcg maxAlloc64 decodeInt 5 (New lcg 1 []) { Name := "a", Config := none }
      = .ok (⟨none, none, some "config: cannot decode"⟩, New lcg 1 []) :=
  Create_decode_error lcg maxAlloc64 decodeInt 5 (New lcg 1 []) { Name := "a", Config := none }
    "config: cannot decode" rfl

/-- C6: with the decoder of the spec, a request whose payload has no `length`
field, or has one that is not an integer, makes `Create` return a decode
error and no credentials, whatever the provider; no credential is returned. -/
theorem Create_missing_or_mistyped_length (R : MathRand σ) (maxAlloc : Int) (now : Int)
    (p : provider σ) (request : CredentialRequest Payload)
    (h : request.Config.lookup "length" = none ∨
      ∃ v, request.Config.lookup "length" = some v ∧ ∀ n, v ≠ FieldValue.int n) :
    ∃ e : ConfigDecodeError,
      UnmarshalConfig request = .error e ∧
      Create Metadata R maxAlloc UnmarshalConfig now p request
        = .ok (⟨none, none, some e⟩, p) := by
  have hdec : ∃ e : ConfigDecodeError, UnmarshalConfig request = .error e := by
    unfold UnmarshalConfig
    rcases h with h | ⟨v, hv, hne⟩
    · rw [h]; exact ⟨_, rfl⟩
    · rw [hv]
      cases v with
      | int n => exact absurd rfl (hne n)
      | null => exact ⟨_, rfl⟩
      | bool b => exact ⟨_, rfl⟩
      | str t => exact ⟨_, rfl⟩
      | other t => exact ⟨_, rfl⟩
  obtain ⟨e, he⟩ := hdec
  refine ⟨e, he, ?_⟩
  unfold Create
  rw [he]

theorem Create_missing_or_mistyped_length_witness :
    ∃ e : ConfigDecodeError,
      UnmarshalConfig { Name := "a", Config := [("length", FieldValue.str "ten")] } = .error e ∧
      Create Unit lcg maxAlloc64 UnmarshalConfig 0 (New lcg 1 [])
          { Name := "a", Config := [("length", FieldValue.str "ten")] }
        = .ok (⟨none, none, some e⟩, New lcg 1 []) :=
  Create_missing_or_mistyped_length lcg maxAlloc64 0 (New lcg 1 [])
    { Name := "a", Config := [("length", FieldValue.str "ten")] }
    (Or.inr ⟨FieldValue.str "ten", by decide, fun n h => by cases h⟩)

/-- C4: for a request of decoded length `n >= 0` and the clock reading `now`
at the call: within the allocation limit `Create` returns one credential, which
expires at `now + 168 h` for a provider built by `New` without options and at
`now + d` when the last option applied is `WithRotationInterval d`, and the
options leave the alphabet and the random source as `New` without options sets
them; above the limit `Create` faults and returns no credential. -/
theorem Create_expiration (R : MathRand σ) (hR : R.InRange) (maxAlloc : Int)
    (U : CredentialRequest Cfg → Except ε RequestConfig) (seed : Int) (g : σ)
    (now : Int) (request : CredentialRequest Cfg) (n : Int)
    (hU : U request = .ok { Length := n }) (hn : 0 ≤ n) :
    (n ≤ maxAlloc →
      (∃ (c : Credential) (p' : provider σ),
        Create Metadata R maxAlloc U now { New R seed [] with generator := g } request
          = .ok (⟨some [c], none, none⟩, p') ∧
        c.Expiration = now + 168 * Hour) ∧
      ∀ (ds : List Int) (d : Int),
        (∃ (c : Credential) (p' : provider σ),
          Create Metadata R maxAlloc U now
              { New R seed ((ds ++ [d]).map WithRotationInterval) with generator := g } request
            = .ok (⟨some [c], none, none⟩, p') ∧
          c.Expiration = now + d) ∧
        (New R seed ((ds ++ [d]).map WithRotationInterval)).chars = (New R seed []).chars ∧
        (New R seed ((ds ++ [d]).map WithRotationInterval)).generator
          = (New R seed []).generator) ∧
    (maxAlloc < n →
      ∀ ds : List Int,
        Create Metadata R maxAlloc U now
            { New R seed (ds.map WithRotationInterval) with generator := g } request
          = .error .makesliceLen) := by
  constructor
  · intro hmax
    refine ⟨⟨_, _,
      Create_ok R hR maxAlloc U now _ request n (New_chars_pos R seed [] g) hU hn hmax, ?_⟩, ?_⟩
    · show now + Hour * 24 * 7 = now + 168 * Hour
      unfold Hour
      norm_num
    · intro ds d
      refine ⟨⟨_, _,
        Create_ok R hR maxAlloc U now _ request n (New_chars_pos R seed (ds ++ [d]) g) hU hn
          hmax, ?_⟩, ?_, ?_⟩
      · show now + (New R seed ((ds ++ [d]).map WithRotationInterval)).rotationInterval
          = now + d
        rw [New_rotationInterval]
        simp
      · rw [New_chars]; rfl
      · rw [New_generator]; rfl
  · intro hover ds
    exact Create_over_limit R maxAlloc U now _ request n hU hover

theorem Create_expiration_witness :
    ((∃ (c : Credential) (p' : provider Nat),
      Create Unit lcg maxAlloc64 decodeInt 1000 { New lcg 1 [] with generator := 9 }
          { Name := "a", Config := some 4 }
        = .ok (⟨some [c], none, none⟩, p') ∧
      c.Expiration = 1000 + 168 * Hour) ∧
     ∀ (ds : List Int) (d : Int),
      (∃ (c : Credential) (p' : provider Nat),
        Create Unit lcg maxAlloc64 decodeInt 1000
            { New lcg 1 ((ds ++ [d]).map WithRotationInterval) with generator := 9 }
            { Name := "a", Config := some 4 }
          = .ok (⟨some [c], none, none⟩, p') ∧
        c.Expiration = 1000 + d) ∧
      (New lcg 1 ((ds ++ [d]).map WithRotationInterval)).chars = (New lcg 1 []).chars ∧
      (New lcg 1 ((ds ++ [d]).map WithRotationInterval)).generator
        = (New lcg 1 []).generator) ∧
    ∀ ds : List Int,
      Create Unit lcg maxAlloc64 decodeInt 1000
          { New lcg 1 (ds.map WithRotationInterval) with generator := 9 }
          { Name := "a", Config := some 4611686018427387904 }
        = .error .makesliceLen :=
  ⟨(Create_expiration lcg lcg_inRange maxAlloc64 decodeInt 1 9 1000
      { Name := "a", Config := some 4 } 4 rfl (by decide)).1 (by decide),
    (Create_expiration lcg lcg_inRange maxAlloc64 decodeInt 1 9 1000
      { Name := "a", Config := some 4611686018427387904 } 4611686018427387904 rfl (by decide)).2 (by decide)⟩

/-- C7, as the code behaves: a request whose config decodes to a negative
length makes `Create` fault at the allocation of the buffer; it returns
neither an error value nor credentials. -/
theorem Create_negative_length_faults (R : MathRand σ) (maxAlloc : Int)
    (U : CredentialRequest Cfg → Except ε RequestConfig) (now : Int) (p : provider σ)
    (request : CredentialRequest Cfg) (n : Int)
    (hU : U request = .ok { Length := n }) (hn : n < 0) :
    Create Metadata R maxAlloc U now p request = .error .makesliceLen := by
  unfold Create
  rw [hU]
  have hlim : n < 0 ∨ maxAlloc < n := Or.inl hn
  simp only [make, if_pos hlim]

theorem Create_negative_length_faults_witness :
    Create Unit lcg maxAlloc64 decodeInt 0 (New lcg 1 []) { Name := "a", Config := some (-3) }
      = .error .makesliceLen :=
  Create_negative_length_faults lcg maxAlloc64 decodeInt 0 (New lcg 1 [])
    { Name := "a", Config := some (-3) } (-3) rfl (by decide)

/-- C7 fails as stated: the config of this request decodes to length `-1`, and
`Create` faults instead of returning an error with no credentials. -/
theorem Create_negative_length_not_an_error :
    decodeInt { Name := "a", Config := some (-1) } = .ok { Length := -1 } ∧
    Create Unit lcg maxAlloc64 decodeInt 0 (New lcg 1 []) { Name := "a", Config := some (-1) }
      = .error .makesliceLen ∧
    ¬ ∃ (r : CreateReturn String Unit) (p' : provider Nat),
      Create Unit lcg maxAlloc64 decodeInt 0 (New lcg 1 [])
          { Name := "a", Config := some (-1) }
        = .ok (r, p') := by
  refine ⟨rfl, rfl, ?_⟩
  rintro ⟨r, p', h⟩
  have h' : (Except.error Panic.makesliceLen :
      Except Panic (CreateReturn String Unit × provider Nat)) = .ok (r, p') := h
  cases h'

/-- C8 fails as stated: with the option `WithRotationInterval 0` the
credential expires at the clock reading of its generation, not after it. -/
theorem Create_expiration_not_after :
    ∃ (c : Credential) (p' : provider Nat),
      Create Unit lcg maxAlloc64 decodeInt 1000 (New lcg 1 [WithRotationInterval 0])
          { Name := "a", Config := some 3 }
        = .ok (⟨some [c], none, none⟩, p') ∧
      ¬ (1000 < c.Expiration) :=
  ⟨_, _, rfl, by decide⟩

/-- C8, as the code behaves: for a request of decoded length `n >= 0`, within
the allocation limit `Create` returns one credential, which expires at the
clock reading of the call plus the rotation interval of the provider, which is
that of the last option `WithRotationInterval d`, or 168 h without options;
the expiration is after the generation time exactly when that interval is
positive, as it is without options.  Above the limit `Create` faults and
returns no credential. -/
theorem Create_expiration_after_iff (R : MathRand σ) (hR : R.InRange) (maxAlloc : Int)
    (U : CredentialRequest Cfg → Except ε RequestConfig) (seed : Int) (ds : List Int) (g : σ)
    (now : Int) (request : CredentialRequest Cfg) (n : Int)
    (hU : U request = .ok { Length := n }) (hn : 0 ≤ n) :
    (n ≤ maxAlloc →
      ∃ (c : Credential) (p' : provider σ),
        Create Metadata R maxAlloc U now
            { New R seed (ds.map WithRotationInterval) with generator := g } request
          = .ok (⟨some [c], none, none⟩, p') ∧
        c.Expiration = now + ds.getLast?.getD (168 * Hour) ∧
        (now < c.Expiration ↔ 0 < ds.getLast?.getD (168 * Hour)) ∧
        (ds = [] → now < c.Expiration)) ∧
    (maxAlloc < n →
      Create Metadata R maxAlloc U now
          { New R seed (ds.map WithRotationInterval) with generator := g } request
        = .error .makesliceLen) := by
  have hexp : now + (New R seed (ds.map WithRotationInterval)).rotationInterval
      = now + ds.getLast?.getD (168 * Hour) := by
    rw [New_rotationInterval]
    have : Hour * 24 * 7 = 168 * Hour := by unfold Hour; norm_num
    rw [this]
  constructor
  · intro hmax
    refine ⟨_, _,
      Create_ok R hR maxAlloc U now _ request n (New_chars_pos R seed ds g) hU hn hmax,
      hexp, ?_, ?_⟩
    · show now < now + (New R seed (ds.map WithRotationInterval)).rotationInterval ↔ _
      rw [hexp]
      constructor <;> intro h <;> linarith
    · intro hds
      show now < now + (New R seed (ds.map WithRotationInterval)).rotationInterval
      rw [hexp, hds]
      have : (0 : Int) < 168 * Hour := by unfold Hour; norm_num
      simpa using this
  · intro hover
    exact Create_over_limit R maxAlloc U now _ request n hU hover

theorem Create_expiration_after_iff_witness :
    (∃ (c : Credential) (p' : provider Nat),
      Create Unit lcg maxAlloc64 decodeInt 1000
          { New lcg 1 ([60, 3600].map WithRotationInterval) with generator := 5 }
          { Name := "a", Config := some 2 }
        = .ok (⟨some [c], none, none⟩, p') ∧
      c.Expiration = 1000 + [60, 3600].getLast?.getD (168 * Hour) ∧
      (1000 < c.Expiration ↔ 0 < [60, 3600].getLast?.getD (168 * Hour)) ∧
      (([60, 3600] : List Int) = [] → 1000 < c.Expiration)) ∧
    Create Unit lcg maxAlloc64 decodeInt 1000
        { New lcg 1 ([60, 3600].map WithRotationInterval) with generator := 5 }
        { Name := "a", Config := some 4611686018427387904 }
      = .error .makesliceLen :=
  ⟨(Create_expiration_after_iff lcg lcg_inRange maxAlloc64 decodeInt 1 [60, 3600] 5 1000
      { Name := "a", Config := some 2 } 2 rfl (by decide)).1 (by decide),
    (Create_expiration_after_iff lcg lcg_inRange maxAlloc64 decodeInt 1 [60, 3600] 5 1000
      { Name := "a", Config := some 4611686018427387904 } 4611686018427387904 rfl (by decide)).2 (by decide)⟩

/-- C9: `Destroy` returns a nil error and the provider unchanged, for every
provider state and every resource, nil included; so a sequence of calls and the
same sequence without its `Destroy` calls give the same `Create` results, the
same final provider state, or the same fault. -/
theorem Destroy_no_effect (R : MathRand σ) (maxAlloc : Int)
    (U : CredentialRequest Cfg → Except ε RequestConfig) :
    (∀ (p : provider σ) (resource : Option Resource),
      Destroy ε p resource = (none, p)) ∧
    ∀ (p : provider σ) (calls : List (Call Cfg Resource)),
      run Metadata R maxAlloc U p calls
        = run Metadata R maxAlloc U p (calls.filter Call.isCreate) := by
  refine ⟨fun _ _ => rfl, ?_⟩
  intro p calls
  induction calls generalizing p with
  | nil => rfl
  | cons call calls ih =>
    cases call with
    | create request now =>
      simp only [List.filter, Call.isCreate, run]
      cases Create Metadata R maxAlloc U now p request with
      | error e => rfl
      | ok rp =>
        obtain ⟨r, p'⟩ := rp
        simp only
        rw [ih p']
    | destroy resource =>
      simp only [List.filter, Call.isCreate, run, Destroy]
      exact ih p

/-- C3: two providers built by `New` from the same seed, with any options,
that each receive `Create` requests decoding to the same sequence of
non-negative lengths, under any names and at any clock readings, have the same
outcome.  When every length is within the allocation limit both run to
completion and return the same sequence of credential values, one value per
request, which is a function of the seed and the lengths alone; when some
length is above the limit both runs end in the allocation fault. -/
theorem Create_deterministic (R : MathRand σ) (hR : R.InRange) (maxAlloc : Int)
    (U : CredentialRequest Cfg → Except ε RequestConfig) (seed : Int) (ds1 ds2 : List Int)
    (calls1 calls2 : List (CredentialRequest Cfg × Int)) (lens : List Int)
    (hlens : ∀ n ∈ lens, 0 ≤ n)
    (h1 : calls1.map (fun c => U c.1) = lens.map (fun n => Except.ok { Length := n }))
    (h2 : calls2.map (fun c => U c.1) = lens.map (fun n => Except.ok { Length := n })) :
    ((∀ n ∈ lens, n ≤ maxAlloc) →
      ∃ (rs1 rs2 : List (CreateReturn ε Metadata)) (p1 p2 : provider σ),
        run Metadata R maxAlloc U (New R seed (ds1.map WithRotationInterval))
            (calls1.map (fun c => (Call.create c.1 c.2 : Call Cfg Resource)))
          = .ok (rs1, p1) ∧
        run Metadata R maxAlloc U (New R seed (ds2.map WithRotationInterval))
            (calls2.map (fun c => (Call.create c.1 c.2 : Call Cfg Resource)))
          = .ok (rs2, p2) ∧
        rs1.map CreateReturn.values = rs2.map CreateReturn.values ∧
        rs1.map CreateReturn.values = valuesFrom R defaultChars (R.New seed) lens ∧
        (rs1.map CreateReturn.values).length = lens.length) ∧
    ((∃ n ∈ lens, maxAlloc < n) →
      run Metadata R maxAlloc U (New R seed (ds1.map WithRotationInterval))
          (calls1.map (fun c => (Call.create c.1 c.2 : Call Cfg Resource)))
        = (.error .makesliceLen :
            Except Panic (List (CreateReturn ε Metadata) × provider σ)) ∧
      run Metadata R maxAlloc U (New R seed (ds2.map WithRotationInterval))
          (calls2.map (fun c => (Call.create c.1 c.2 : Call Cfg Resource)))
        = (.error .makesliceLen :
            Except Panic (List (CreateReturn ε Metadata) × provider σ))) := by
  have hpos : ∀ ds : List Int, 0 < len (New R seed (ds.map WithRotationInterval)).chars := by
    intro ds
    rw [New_chars, len_defaultChars]
    decide
  constructor
  · intro hmax
    obtain ⟨rs1, p1, hr1, hv1⟩ := @run_creates σ Cfg ε Metadata Resource
      R hR maxAlloc U calls1 lens (New R seed (ds1.map WithRotationInterval)) (hpos ds1) h1
      hlens hmax
    obtain ⟨rs2, p2, hr2, hv2⟩ := @run_creates σ Cfg ε Metadata Resource
      R hR maxAlloc U calls2 lens (New R seed (ds2.map WithRotationInterval)) (hpos ds2) h2
      hlens hmax
    rw [New_chars, New_generator] at hv1 hv2
    refine ⟨rs1, rs2, p1, p2, hr1, hr2, ?_, hv1, ?_⟩
    · rw [hv1, hv2]
    · rw [hv1, valuesFrom_length]
  · intro hover
    exact ⟨@run_creates_over_limit σ Cfg ε Metadata Resource R hR maxAlloc U calls1 lens
        (New R seed (ds1.map WithRotationInterval)) (hpos ds1) h1 hlens hover,
      @run_creates_over_limit σ Cfg ε Metadata Resource R hR maxAlloc U calls2 lens
        (New R seed (ds2.map WithRotationInterval)) (hpos ds2) h2 hlens hover⟩

theorem Create_deterministic_witness :
    (∃ (rs1 rs2 : List (CreateReturn String Unit)) (p1 p2 : provider Nat),
      run Unit lcg maxAlloc64 decodeInt (New lcg 1 ([].map WithRotationInterval))
          ([(({ Name := "a", Config := some 2 } : CredentialRequest (Option Int)), (10 : Int)),
            ({ Name := "b", Config := some 0 }, 20),
            ({ Name := "c", Config := some 5 }, 30)].map
            (fun c => (Call.create c.1 c.2 : Call (Option Int) Unit))) = .ok (rs1, p1) ∧
      run Unit lcg maxAlloc64 decodeInt (New lcg 1 ([3600].map WithRotationInterval))
          ([(({ Name := "x", Config := some 2 } : CredentialRequest (Option Int)), (7 : Int)),
            ({ Name := "y", Config := some 0 }, 8),
            ({ Name := "z", Config := some 5 }, 9)].map
            (fun c => (Call.create c.1 c.2 : Call (Option Int) Unit))) = .ok (rs2, p2) ∧
      rs1.map CreateReturn.values = rs2.map CreateReturn.values ∧
      rs1.map CreateReturn.values = valuesFrom lcg defaultChars (lcg.New 1) [2, 0, 5] ∧
      (rs1.map CreateReturn.values).length = [(2 : Int), 0, 5].length) ∧
    (run Unit lcg maxAlloc64 decodeInt (New lcg 1 ([].map WithRotationInterval))
        ([(({ Name := "a", Config := some 2 } : CredentialRequest (Option Int)), (10 : Int)),
          ({ Name := "b", Config := some 4611686018427387904 }, 20)].map
          (fun c => (Call.create c.1 c.2 : Call (Option Int) Unit)))
      = (.error .makesliceLen :
          Except Panic (List (CreateReturn String Unit) × provider Nat)) ∧
    run Unit lcg maxAlloc64 decodeInt (New lcg 1 ([3600].map WithRotationInterval))
        ([(({ Name := "x", Config := some 2 } : CredentialRequest (Option Int)), (7 : Int)),
          ({ Name := "y", Config := some 4611686018427387904 }, 8)].map
          (fun c => (Call.create c.1 c.2 : Call (Option Int) Unit)))
      = (.error .makesliceLen :
          Except Panic (List (CreateReturn String Unit) × provider Nat))) :=
  ⟨(Create_deterministic lcg lcg_inRange maxAlloc64 decodeInt 1 [] [3600]
      [({ Name := "a", Config := some 2 }, 10), ({ Name := "b", Config := some 0 }, 20),
        ({ Name := "c", Config := some 5 }, 30)]
      [({ Name := "x", Config := some 2 }, 7), ({ Name := "y", Config := some 0 }, 8),
        ({ Name := "z", Config := some 5 }, 9)]
      [2, 0, 5] (by decide) rfl rfl).1 (by decide),
    (Create_deterministic lcg lcg_inRange maxAlloc64 decodeInt 1 [] [3600]
      [({ Name := "a", Config := some 2 }, 10), ({ Name := "b", Config := some 4611686018427387904 }, 20)]
      [({ Name := "x", Config := some 2 }, 7), ({ Name := "y", Config := some 4611686018427387904 }, 8)]
      [2, 4611686018427387904] (by decide) rfl rfl).2 (by decide)⟩

/-- C10 fails as stated: for `n = 2^62` and `m = 0`, both non-negative, neither
`Create` with length `n` nor `Create` with length `n + m` on a fresh provider
yields a value; both fault at the allocation of the buffer. -/
theorem Create_additive_over_limit :
    (0 : Int) ≤ 4611686018427387904 ∧ (0 : Int) ≤ 0 ∧
    Create Unit lcg maxAlloc64 decodeInt 1 (New lcg 1 [])
        { Name := "a", Config := some 4611686018427387904 }
      = .error .makesliceLen ∧
    Create Unit lcg maxAlloc64 decodeInt 3 (New lcg 1 [])
        { Name := "c", Config := some (4611686018427387904 + 0) }
      = .error .makesliceLen ∧
    ¬ ∃ (r : CreateReturn String Unit) (p3 : provider Nat),
      Create Unit lcg maxAlloc64 decodeInt 3 (New lcg 1 [])
          { Name := "c", Config := some (4611686018427387904 + 0) }
        = .ok (r, p3) := by
  refine ⟨by decide, by decide, rfl, rfl, ?_⟩
  rintro ⟨r, p3, h⟩
  have h' : (Except.error Panic.makesliceLen :
      Except Panic (CreateReturn String Unit × provider Nat)) = .ok (r, p3) := h
  cases h'

/-- C10, as the code behaves: `Create` with decoded length `n >= 0` within the
allocation limit makes exactly `n` draws, all with bound `len(alphabet)`, and
nothing else with the random source: its value is the alphabet characters at
these draws and the source is left in the state after them.  So for
`n, m >= 0` with `n + m <= maxAlloc`, `Create` with length `n` then with length
`m` on one provider built by `New` gives values whose concatenation is the
value of one `Create` with length `n + m` on a fresh provider of the same seed,
and both leave the random source in the same state; a `Create` with length 0
returns the empty value and leaves the provider as it was. -/
theorem Create_draws_additive (R : MathRand σ) (hR : R.InRange) (maxAlloc : Int)
    (U : CredentialRequest Cfg → Except ε RequestConfig) (seed : Int) (ds ds' : List Int)
    (now1 now2 now3 : Int) (rn rm rnm : CredentialRequest Cfg) (n m : Int)
    (hn : 0 ≤ n) (hm : 0 ≤ m) (hmax : n + m ≤ maxAlloc)
    (hUn : U rn = .ok { Length := n }) (hUm : U rm = .ok { Length := m })
    (hUnm : U rnm = .ok { Length := n + m }) :
    (∃ (c1 c2 c : Credential) (p1 p2 p3 : provider σ),
      Create Metadata R maxAlloc U now1 (New R seed (ds.map WithRotationInterval)) rn
        = .ok (⟨some [c1], none, none⟩, p1) ∧
      Create Metadata R maxAlloc U now2 p1 rm = .ok (⟨some [c2], none, none⟩, p2) ∧
      Create Metadata R maxAlloc U now3 (New R seed (ds'.map WithRotationInterval)) rnm
        = .ok (⟨some [c], none, none⟩, p3) ∧
      c.Value = c1.Value ++ c2.Value ∧
      p2.generator = p3.generator ∧
      c1.Value = String.mk
        ((draws R (len defaultChars) n.toNat (R.New seed)).1.map (charAt defaultChars)) ∧
      p1.generator = (draws R (len defaultChars) n.toNat (R.New seed)).2) ∧
    ∀ (now : Int) (p : provider σ) (r : CredentialRequest Cfg), U r = .ok { Length := 0 } →
      ∃ c0 : Credential,
        Create Metadata R maxAlloc U now p r = .ok (⟨some [c0], none, none⟩, p) ∧
        c0.Value = "" := by
  have hpos : ∀ ds : List Int, 0 < len (New R seed (ds.map WithRotationInterval)).chars := by
    intro ds
    rw [New_chars, len_defaultChars]
    decide
  constructor
  · have hC1 := @Create_ok σ Cfg ε Metadata R hR maxAlloc U now1
      (New R seed (ds.map WithRotationInterval)) rn n (hpos ds) hUn hn (by omega)
    have hC2 := @Create_ok σ Cfg ε Metadata R hR maxAlloc U now2
      { New R seed (ds.map WithRotationInterval) with
        generator := (draws R (len (New R seed (ds.map WithRotationInterval)).chars) n.toNat
          (New R seed (ds.map WithRotationInterval)).generator).2 } rm m (hpos ds) hUm hm
      (by omega)
    have hC3 := @Create_ok σ Cfg ε Metadata R hR maxAlloc U now3
      (New R seed (ds'.map WithRotationInterval)) rnm (n + m) (hpos ds') hUnm
      (Int.add_nonneg hn hm) hmax
    refine ⟨_, _, _, _, _, _, hC1, hC2, hC3, ?_, ?_, ?_, ?_⟩
    · simp only [valueFrom, New_chars, New_generator, Int.toNat_add hn hm, draws_add,
        List.map_append]
      rfl
    · simp only [New_chars, New_generator, Int.toNat_add hn hm, draws_add]
    · simp only [valueFrom, New_chars, New_generator]
    · simp only [New_chars, New_generator]
  · intro now p r hr
    exact ⟨_, Create_zero R maxAlloc (by omega) U now p r hr, rfl⟩

theorem Create_draws_additive_witness :
    (∃ (c1 c2 c : Credential) (p1 p2 p3 : provider Nat),
      Create Unit lcg maxAlloc64 decodeInt 1 (New lcg 1 ([].map WithRotationInterval))
          { Name := "a", Config := some 3 }
        = .ok (⟨some [c1], none, none⟩, p1) ∧
      Create Unit lcg maxAlloc64 decodeInt 2 p1 { Name := "b", Config := some 4 }
        = .ok (⟨some [c2], none, none⟩, p2) ∧
      Create Unit lcg maxAlloc64 decodeInt 3 (New lcg 1 ([60].map WithRotationInterval))
          { Name := "c", Config := some 7 }
        = .ok (⟨some [c], none, none⟩, p3) ∧
      c.Value = c1.Value ++ c2.Value ∧
      p2.generator = p3.generator ∧
      c1.Value = String.mk
        ((draws lcg (len defaultChars) (3 : Int).toNat (lcg.New 1)).1.map
          (charAt defaultChars)) ∧
      p1.generator = (draws lcg (len defaultChars) (3 : Int).toNat (lcg.New 1)).2) ∧
    ∀ (now : Int) (p : provider Nat) (r : CredentialRequest (Option Int)),
      decodeInt r = .ok { Length := 0 } →
      ∃ c0 : Credential,
        Create Unit lcg maxAlloc64 decodeInt now p r = .ok (⟨some [c0], none, none⟩, p) ∧
        c0.Value = "" :=
  Create_draws_additive lcg lcg_inRange maxAlloc64 decodeInt 1 [] [60] 1 2 3
    { Name := "a", Config := some 3 } { Name := "b", Config := some 4 }
    { Name := "c", Config := some 7 } 3 4 (by decide) (by decide) (by decide) rfl rfl rfl

end Claims

end Sidecred.Random
